import Mathlib

/-!
Shallow embedding of `src/opensource_release/google_photos_transfer_app.py`:
the persistent transfer-state store (`TransferDB`), the folder-processing
algorithm (`TransferApp.process_folder`) and the session driver
(`TransferApp.start_transfer`), together with theorems about them.

The remote Google Photos client is modelled as an oracle (`Remote`) giving a
deterministic answer per call site and arguments; the filesystem walk is an
oracle mapping a folder path to its `os.walk` output, flattened to
`(root, filename)` pairs in walk order.  All runs record the remote calls
they issue (with their results) as an event list.
-/

set_option autoImplicit false

/-- Substring test, Python's `needle in hay`. -/
def containsSub (hay needle : String) : Bool :=
  hay.data.tails.any (fun t => needle.data.isPrefixOf t)

/-- Split a character list at every occurrence of `sep`, keeping empty
pieces, like Python `str.split(sep)` with a one-character separator. -/
def splitOnChar (sep : Char) : List Char → List (List Char)
  | [] => [[]]
  | c :: rest =>
    if c == sep then [] :: splitOnChar sep rest
    else
      match splitOnChar sep rest with
      | [] => [[c]]
      | h :: t => (c :: h) :: t

/-- Join character lists with a separator character. -/
def joinChar (sep : Char) : List (List Char) → List Char
  | [] => []
  | [x] => x
  | x :: xs => x ++ sep :: joinChar sep xs

/-- ASCII lower-casing, Python `str.lower()` on the ASCII text the program
handles (extensions, error messages, folder names). -/
def strLower (s : String) : String :=
  String.mk (s.data.map Char.toLower)

/-- Python `str.startswith(pre)`. -/
def strStartsWith (s pre : String) : Bool :=
  pre.data.isPrefixOf s.data

/-- Model of Python `pathlib.Path(p).as_posix()` on a POSIX system: the path
is split on `/`, empty components and single dots are dropped, a root
(`/`, or the special double-slash root `//`) is remembered, and the pieces
are rejoined with `/`.  No case folding happens.  An empty result renders
as `.` like `PurePosixPath("")`. -/
def normKey (p : String) : String :=
  let parts := (splitOnChar '/' p.data).filter (fun s => s != [] && s != ['.'])
  let root : List Char :=
    if ['/', '/'].isPrefixOf p.data && !(['/', '/', '/'].isPrefixOf p.data) then ['/', '/']
    else if ['/'].isPrefixOf p.data then ['/']
    else []
  if parts.isEmpty then (if root.isEmpty then "." else String.mk root)
  else String.mk (root ++ joinChar '/' parts)

/-- Model of `os.path.basename` on POSIX: everything after the last `/`. -/
def basename (p : String) : String :=
  String.mk ((splitOnChar '/' p.data).getLastD [])

/-- Model of `os.path.join(a, b)` on POSIX for the two-argument case. -/
def osJoin (a b : String) : String :=
  if ['/'].isPrefixOf b.data then b
  else if a.data.isEmpty || a.data.getLastD ' ' == '/' then String.mk (a.data ++ b.data)
  else String.mk (a.data ++ '/' :: b.data)

/-- Index of the last `.` in a character list, if any. -/
def lastDotIdx : List Char → Option Nat
  | [] => none
  | c :: rest =>
    match lastDotIdx rest with
    | some i => some (i + 1)
    | none => if c == '.' then some 0 else none

/-- Model of `os.path.splitext(f)[1]` for a bare file name (no `/` inside,
which is how the source applies it): the suffix from the last dot on,
unless every character before that dot is itself a dot (so `.bashrc` has
no extension). -/
def splitextExt (f : String) : String :=
  let cs := f.data
  match lastDotIdx cs with
  | none => ""
  | some i =>
    if (cs.take i).any (fun c => c != '.') then String.mk (cs.drop i) else ""

/-- The quota classification used at all three failure sites of
`process_folder`: `"quota" in error_msg.lower() or "429" in error_msg`. -/
def isQuotaError (msg : String) : Bool :=
  containsSub (strLower msg) "quota" || containsSub msg "429"

/-- `image_extensions` from `process_folder`. -/
def image_extensions : List String :=
  [".jpg", ".jpeg", ".png", ".gif", ".bmp", ".webp"]

/-- A row of the `folders` table: `album_id` (nullable) and `status`
(defaulting to `"pending"`). -/
structure FolderRec where
  album_id : Option String
  status : String
deriving DecidableEq, Repr

/-- A row of the `files` table: owning folder path and `status`. -/
structure FileRec where
  folder_path : String
  status : String
deriving DecidableEq, Repr

/-- The SQLite database `transfer_state.db`: the `folders` and `files`
tables, keyed by path (`path TEXT PRIMARY KEY`), modelled as association
lists. -/
structure TransferDB where
  folders : List (String × FolderRec)
  files : List (String × FileRec)
deriving DecidableEq, Repr

/-- The empty database produced by `_init_db` on first run. -/
def emptyDB : TransferDB := ⟨[], []⟩

/-- First value stored under a key (the primary key admits at most one). -/
def lookupA {α : Type} : List (String × α) → String → Option α
  | [], _ => none
  | (k2, v) :: rest, k => if k2 = k then some v else lookupA rest k

/-- SQL `UPDATE ... WHERE path = k`: rewrite every row whose key is `k`. -/
def updateA {α : Type} (l : List (String × α)) (k : String) (f : α → α) :
    List (String × α) :=
  l.map (fun kv => if kv.1 = k then (kv.1, f kv.2) else kv)

/-- `TransferDB.get_folder_resumption_data`. -/
def get_folder_resumption_data (db : TransferDB) (folder_path : String) :
    Option (Option String × String) :=
  (lookupA db.folders (normKey folder_path)).map (fun rec => (rec.album_id, rec.status))

/-- `TransferDB.set_folder_album`: `INSERT ... ON CONFLICT(path) DO UPDATE SET
album_id = excluded.album_id`; a fresh row gets the default status
`"pending"`, a conflicting row keeps its status. -/
def set_folder_album (db : TransferDB) (folder_path album_id : String) : TransferDB :=
  match lookupA db.folders (normKey folder_path) with
  | some _ =>
    ⟨updateA db.folders (normKey folder_path) (fun rec => { rec with album_id := some album_id }),
      db.files⟩
  | none => ⟨db.folders ++ [(normKey folder_path, ⟨some album_id, "pending"⟩)], db.files⟩

/-- `TransferDB.set_folder_status`: a plain `UPDATE`, so a no-op when no row
with this key exists. -/
def set_folder_status (db : TransferDB) (folder_path status : String) : TransferDB :=
  ⟨updateA db.folders (normKey folder_path) (fun rec => { rec with status := status }), db.files⟩

/-- `TransferDB.is_file_uploaded`: `SELECT 1 FROM files WHERE path = ? AND
status = 'uploaded'`. -/
def is_file_uploaded (db : TransferDB) (file_path : String) : Bool :=
  decide ((lookupA db.files (normKey file_path)).map FileRec.status = some "uploaded")

/-- `TransferDB.mark_file_uploaded`: `INSERT ... ON CONFLICT(path) DO UPDATE
SET status = 'uploaded'`; a conflicting row keeps its `folder_path`. -/
def mark_file_uploaded (db : TransferDB) (file_path folder_path : String) : TransferDB :=
  match lookupA db.files (normKey file_path) with
  | some _ =>
    ⟨db.folders, updateA db.files (normKey file_path) (fun rec => { rec with status := "uploaded" })⟩
  | none => ⟨db.folders, db.files ++ [(normKey file_path, ⟨normKey folder_path, "uploaded"⟩)]⟩

/-- Status of a folder record, when one exists. -/
def folder_status (db : TransferDB) (folder_path : String) : Option String :=
  (lookupA db.folders (normKey folder_path)).map FolderRec.status

instance {ε α : Type} [DecidableEq ε] [DecidableEq α] : DecidableEq (Except ε α) := fun x y =>
  match x, y with
  | .error a, .error b => if h : a = b then isTrue (by simp [h]) else isFalse (by simp [h])
  | .error _, .ok _ => isFalse (by simp)
  | .ok _, .error _ => isFalse (by simp)
  | .ok a, .ok b => if h : a = b then isTrue (by simp [h]) else isFalse (by simp [h])

/-- One remote call together with its outcome, as issued by the engine. -/
inductive Ev where
  | createAlbum (title : String) (result : Except String String)
  | upload (path : String) (result : Except String String)
  | commit (tokens : List String) (album : Option String) (result : Except String (List String))
deriving DecidableEq, Repr

/-- The remote Google Photos client, an oracle answering each call from its
arguments: `create_album`, `upload_bytes` (returning an upload token) and
`batch_create_media_items` (committing tokens, optionally into an album).
An `Except.error` value carries the exception's message text. -/
structure Remote where
  create_album : String → Except String String
  upload_bytes : String → Except String String
  batch_create : List String → Option String → Except String (List String)

/-- Outcome of the inner per-file upload loop of one batch. -/
structure UpOut where
  quota : Bool
  pairs : List (String × String)
  events : List Ev
deriving DecidableEq, Repr

/-- The per-file loop of one batch in `process_folder`: upload each file; on
success retain `(token, path)`; on a quota-type failure abort the whole
folder at once; on any other failure skip just this file. -/
def uploadBatch (r : Remote) : List String → UpOut
  | [] => ⟨false, [], []⟩
  | f :: rest =>
    match r.upload_bytes f with
    | .ok tok =>
      let o := uploadBatch r rest
      ⟨o.quota, (tok, f) :: o.pairs, Ev.upload f (.ok tok) :: o.events⟩
    | .error e =>
      if isQuotaError e then ⟨true, [], [Ev.upload f (.error e)]⟩
      else
        let o := uploadBatch r rest
        ⟨o.quota, o.pairs, Ev.upload f (.error e) :: o.events⟩

/-- Structural worker for `chunks`: the fuel argument only bounds the number
of batches (it starts at the list length, which always suffices), keeping
the recursion kernel-computable. -/
def chunksAux : Nat → List String → List (List String)
  | _, [] => []
  | 0, _ :: _ => []
  | Nat.succ n, x :: xs => (x :: xs).take 10 :: chunksAux n ((x :: xs).drop 10)

/-- Partition into the fixed-size batches of `range(0, len, BATCH_SIZE)` with
`BATCH_SIZE = 10`. -/
def chunks (l : List String) : List (List String) :=
  chunksAux l.length l

/-- Outcome of the batched-transfer loop. -/
structure BOut where
  ok : Bool
  db : TransferDB
  events : List Ev
deriving DecidableEq, Repr

/-- The batch loop of `process_folder`: per batch, run the upload loop
(aborting the folder on a quota-type upload failure), then, when at least
one token was collected, commit the batch; on commit success mark every
collected path uploaded; on a quota-type commit failure abort the folder;
on any other commit failure continue with the next batch unmarked. -/
def runBatches (r : Remote) (folder_path : String) (album_id : Option String)
    (db : TransferDB) : List (List String) → BOut
  | [] => ⟨true, db, []⟩
  | b :: rest =>
    let u := uploadBatch r b
    if u.quota then ⟨false, db, u.events⟩
    else
      let toks := u.pairs.map Prod.fst
      let paths := u.pairs.map Prod.snd
      if toks = [] then
        let o := runBatches r folder_path album_id db rest
        ⟨o.ok, o.db, u.events ++ o.events⟩
      else
        match r.batch_create toks album_id with
        | .ok ids =>
          let db2 := paths.foldl (fun d p => mark_file_uploaded d p folder_path) db
          let o := runBatches r folder_path album_id db2 rest
          ⟨o.ok, o.db, u.events ++ Ev.commit toks album_id (.ok ids) :: o.events⟩
        | .error e =>
          if isQuotaError e then ⟨false, db, u.events ++ [Ev.commit toks album_id (.error e)]⟩
          else
            let o := runBatches r folder_path album_id db rest
            ⟨o.ok, o.db, u.events ++ Ev.commit toks album_id (.error e) :: o.events⟩

/-- Result of one `process_folder` call: the returned boolean, the database
afterwards, and the remote calls issued. -/
structure PFOut where
  ok : Bool
  db : TransferDB
  events : List Ev
deriving DecidableEq, Repr

/-- File selection of `process_folder`: from the flattened `os.walk` output,
keep each file whose lower-cased extension is in `image_extensions`, joined
onto its directory. -/
def enumFiles (walkOut : List (String × String)) : List String :=
  walkOut.filterMap (fun rf =>
    if strLower (splitextExt rf.2) ∈ image_extensions then some (osJoin rf.1 rf.2)
    else none)

/-- `process_folder` from enumeration onward: gather files, handle the empty
cases (marking the folder processed), filter out already-uploaded files,
run the batches, and mark the folder processed when no fatal abort
occurred. -/
def process_folder_rest (r : Remote) (walkOut : List (String × String))
    (db : TransferDB) (folder_path : String) (album_id : Option String) : PFOut :=
  let all_files := enumFiles walkOut
  if all_files.isEmpty then ⟨true, set_folder_status db folder_path "processed", []⟩
  else
    let files_to_upload := all_files.filter (fun f => !(is_file_uploaded db f))
    if files_to_upload.isEmpty then ⟨true, set_folder_status db folder_path "processed", []⟩
    else
      let o := runBatches r folder_path album_id db (chunks files_to_upload)
      if o.ok then ⟨true, set_folder_status o.db folder_path "processed", o.events⟩
      else ⟨false, o.db, o.events⟩

/-- The album-decision step of `process_folder`: an album folder with no
stored album id creates one and persists it immediately; any creation
failure is fatal for the folder (quota-type failures are logged distinctly
but abort identically). -/
def pf_album (r : Remote) (walkOut : List (String × String)) (db : TransferDB)
    (folder_path : String) (existing_album_id : Option String) : PFOut :=
  let folder_name := basename folder_path
  let is_album := !(strStartsWith (strLower folder_name) "photos from")
  if is_album && existing_album_id.isNone then
    match r.create_album folder_name with
    | .error e => ⟨false, db, [Ev.createAlbum folder_name (.error e)]⟩
    | .ok aid =>
      let o := process_folder_rest r walkOut (set_folder_album db folder_path aid)
        folder_path (some aid)
      ⟨o.ok, o.db, Ev.createAlbum folder_name (.ok aid) :: o.events⟩
  else
    process_folder_rest r walkOut db folder_path existing_album_id

/-- `TransferApp.process_folder`: normalize the path, short-circuit a folder
already recorded `processed`, then run the album decision and the transfer
steps. -/
def process_folder (r : Remote) (walk : String → List (String × String))
    (db : TransferDB) (folder_path0 : String) : PFOut :=
  match get_folder_resumption_data db (normKey folder_path0) with
  | some (existing_album_id, status) =>
    if status = "processed" then ⟨true, db, []⟩
    else pf_album r (walk (normKey folder_path0)) db (normKey folder_path0) existing_album_id
  | none => pf_album r (walk (normKey folder_path0)) db (normKey folder_path0) none

/-- Result of one `start_transfer` run: final database, the remaining queue,
the `(folder, returned boolean)` outcomes in processing order, the remote
calls issued, and whether the run paused on a failing folder. -/
structure STOut where
  db : TransferDB
  queue : List String
  results : List (String × Bool)
  events : List Ev
  paused : Bool
deriving DecidableEq, Repr

/-- The loop of `TransferApp.start_transfer`: process the head folder, on
success remove it from the head of the queue and continue, on failure stop
the whole run leaving the queue as it stands. -/
def start_transfer (r : Remote) (walk : String → List (String × String))
    (db : TransferDB) : List String → STOut
  | [] => ⟨db, [], [], [], false⟩
  | f :: rest =>
    let o := process_folder r walk db f
    if o.ok then
      let s := start_transfer r walk o.db rest
      ⟨s.db, s.queue, (f, true) :: s.results, o.events ++ s.events, s.paused⟩
    else
      ⟨o.db, f :: rest, [(f, false)], o.events, true⟩

/-! ## Association-list lemmas -/

theorem lookupA_cons {α : Type} (k2 : String) (v : α) (rest : List (String × α)) (k : String) :
    lookupA ((k2, v) :: rest) k = if k2 = k then some v else lookupA rest k := rfl

theorem updateA_cons {α : Type} (k2 : String) (v : α) (rest : List (String × α)) (k : String)
    (f : α → α) :
    updateA ((k2, v) :: rest) k f =
      (if k2 = k then (k2, f v) else (k2, v)) :: updateA rest k f := by
  by_cases h : k2 = k <;> simp [updateA, h]

theorem lookupA_updateA_self {α : Type} (l : List (String × α)) (k : String) (f : α → α) :
    lookupA (updateA l k f) k = (lookupA l k).map f := by
  induction l with
  | nil => rfl
  | cons kv rest ih =>
    obtain ⟨k2, v⟩ := kv
    rw [updateA_cons]
    by_cases h : k2 = k
    · simp [lookupA_cons, h]
    · simp only [if_neg h, lookupA_cons, ih]

theorem lookupA_updateA_ne {α : Type} (l : List (String × α)) (k k2 : String) (f : α → α)
    (h : k2 ≠ k) : lookupA (updateA l k f) k2 = lookupA l k2 := by
  induction l with
  | nil => rfl
  | cons kv rest ih =>
    obtain ⟨ka, v⟩ := kv
    rw [updateA_cons]
    by_cases ha : ka = k
    · have hne : ka ≠ k2 := by rw [ha]; exact fun c => h c.symm
      simp only [if_pos ha, lookupA_cons, if_neg hne, ih]
    · simp only [if_neg ha, lookupA_cons, ih]

theorem lookupA_append_some {α : Type} (l m : List (String × α)) (k : String) (v : α)
    (h : lookupA l k = some v) : lookupA (l ++ m) k = some v := by
  induction l with
  | nil => simp [lookupA] at h
  | cons kv rest ih =>
    obtain ⟨ka, va⟩ := kv
    rw [lookupA_cons] at h
    rw [List.cons_append, lookupA_cons]
    by_cases ha : ka = k
    · rwa [if_pos ha] at h ⊢
    · rw [if_neg ha] at h ⊢
      exact ih h

theorem lookupA_append_none {α : Type} (l m : List (String × α)) (k : String)
    (h : lookupA l k = none) : lookupA (l ++ m) k = lookupA m k := by
  induction l with
  | nil => rfl
  | cons kv rest ih =>
    obtain ⟨ka, va⟩ := kv
    rw [lookupA_cons] at h
    rw [List.cons_append, lookupA_cons]
    by_cases ha : ka = k
    · rw [if_pos ha] at h; exact absurd h (by simp)
    · rw [if_neg ha] at h ⊢
      exact ih h

/-! ## State-store lemmas -/

theorem files_set_folder_status (db : TransferDB) (p st : String) :
    (set_folder_status db p st).files = db.files := rfl

theorem files_set_folder_album (db : TransferDB) (p a : String) :
    (set_folder_album db p a).files = db.files := by
  unfold set_folder_album
  split <;> rfl

theorem folders_mark_file_uploaded (db : TransferDB) (p fp : String) :
    (mark_file_uploaded db p fp).folders = db.folders := by
  unfold mark_file_uploaded
  split <;> rfl

/-- A folder looked up right after `set_folder_status db p "processed"` under
the key of `p` can only carry status `"processed"`. -/
theorem set_folder_status_lookup_processed (db : TransferDB) (p : String) (rec : FolderRec)
    (h : lookupA (set_folder_status db p "processed").folders (normKey p) = some rec) :
    rec.status = "processed" := by
  unfold set_folder_status at h
  rw [lookupA_updateA_self] at h
  cases hl : lookupA db.folders (normKey p) with
  | none => rw [hl] at h; simp at h
  | some r0 =>
    rw [hl] at h
    simp at h
    rw [← h]

/-! ## Monotonicity of the store under each engine write -/

theorem uploaded_mono_mark (db : TransferDB) (p fp x : String)
    (h : is_file_uploaded db x = true) :
    is_file_uploaded (mark_file_uploaded db p fp) x = true := by
  unfold is_file_uploaded at h ⊢
  unfold mark_file_uploaded
  cases hl : lookupA db.files (normKey p) with
  | some r0 =>
    simp only [hl]
    by_cases hk : normKey x = normKey p
    · rw [hk] at h ⊢
      simp only [lookupA_updateA_self, hl]
      simp
    · simp only [lookupA_updateA_ne _ _ _ _ hk]
      exact h
  | none =>
    simp only [hl]
    simp only [decide_eq_true_eq] at h ⊢
    cases hx : lookupA db.files (normKey x) with
    | none => rw [hx] at h; simp at h
    | some rx =>
      rw [hx] at h
      rw [lookupA_append_some _ _ _ _ hx]
      exact h

theorem processed_mono_status (db : TransferDB) (p x : String)
    (h : folder_status db x = some "processed") :
    folder_status (set_folder_status db p "processed") x = some "processed" := by
  unfold folder_status at h ⊢
  unfold set_folder_status
  by_cases hk : normKey x = normKey p
  · rw [hk] at h ⊢
    simp only [lookupA_updateA_self]
    cases hl : lookupA db.folders (normKey p) with
    | none => rw [hl] at h; simp at h
    | some r0 => simp
  · simp only [lookupA_updateA_ne _ _ _ _ hk]
    exact h

theorem processed_mono_album (db : TransferDB) (p a x : String)
    (h : folder_status db x = some "processed") :
    folder_status (set_folder_album db p a) x = some "processed" := by
  unfold folder_status at h ⊢
  unfold set_folder_album
  cases hl : lookupA db.folders (normKey p) with
  | some r0 =>
    simp only [hl]
    by_cases hk : normKey x = normKey p
    · rw [hk] at h ⊢
      simp only [lookupA_updateA_self, hl]
      rw [hl] at h
      simp at h
      simp [h]
    · simp only [lookupA_updateA_ne _ _ _ _ hk]
      exact h
  | none =>
    simp only [hl]
    cases hx : lookupA db.folders (normKey x) with
    | none => rw [hx] at h; simp at h
    | some rx =>
      rw [hx] at h
      rw [lookupA_append_some _ _ _ _ hx]
      exact h

theorem uploaded_mono_marks (db : TransferDB) (paths : List String) (fp x : String)
    (h : is_file_uploaded db x = true) :
    is_file_uploaded (paths.foldl (fun d p => mark_file_uploaded d p fp) db) x = true := by
  induction paths generalizing db with
  | nil => exact h
  | cons p rest ih =>
    exact ih (mark_file_uploaded db p fp) (uploaded_mono_mark db p fp x h)

theorem processed_foldl_marks (db : TransferDB) (paths : List String) (fp x : String) :
    folder_status (paths.foldl (fun d p => mark_file_uploaded d p fp) db) x =
      folder_status db x := by
  induction paths generalizing db with
  | nil => rfl
  | cons p rest ih =>
    simp only [List.foldl_cons]
    rw [ih (mark_file_uploaded db p fp)]
    unfold folder_status
    rw [folders_mark_file_uploaded]

theorem runBatches_mono (r : Remote) (fp : String) (alb : Option String) (db : TransferDB)
    (bs : List (List String)) (x y : String) :
    (is_file_uploaded db x = true →
      is_file_uploaded (runBatches r fp alb db bs).db x = true) ∧
    (folder_status db y = some "processed" →
      folder_status (runBatches r fp alb db bs).db y = some "processed") := by
  induction bs generalizing db with
  | nil => exact ⟨fun h => h, fun h => h⟩
  | cons b rest ih =>
    unfold runBatches
    by_cases hq : (uploadBatch r b).quota
    · simp only [hq, if_true]
      exact ⟨fun h => h, fun h => h⟩
    · simp only [hq, if_false, Bool.false_eq_true]
      by_cases ht : (uploadBatch r b).pairs.map Prod.fst = []
      · simp only [ht, if_true]
        exact ih db
      · simp only [ht, if_false]
        cases hc : r.batch_create ((uploadBatch r b).pairs.map Prod.fst) alb with
        | ok ids =>
          constructor
          · intro h
            exact (ih _).1 (uploaded_mono_marks db _ fp x h)
          · intro h
            refine (ih _).2 ?_
            rw [processed_foldl_marks]
            exact h
        | error e =>
          by_cases he : isQuotaError e
          · simp only [he, if_true]
            exact ⟨fun h => h, fun h => h⟩
          · simp only [he, if_false, Bool.false_eq_true]
            exact ih db

theorem process_folder_rest_mono (r : Remote) (wl : List (String × String)) (db : TransferDB)
    (fp : String) (alb : Option String) (x y : String) :
    (is_file_uploaded db x = true →
      is_file_uploaded (process_folder_rest r wl db fp alb).db x = true) ∧
    (folder_status db y = some "processed" →
      folder_status (process_folder_rest r wl db fp alb).db y = some "processed") := by
  unfold process_folder_rest
  by_cases h1 : (enumFiles wl).isEmpty
  · simp only [h1, if_true]
    exact ⟨fun h => h, fun h => processed_mono_status db fp y h⟩
  · simp only [h1, if_false, Bool.false_eq_true]
    by_cases h2 : ((enumFiles wl).filter (fun f => !(is_file_uploaded db f))).isEmpty
    · simp only [h2, if_true]
      exact ⟨fun h => h, fun h => processed_mono_status db fp y h⟩
    · simp only [h2, if_false, Bool.false_eq_true]
      by_cases h3 : (runBatches r fp alb db
          (chunks ((enumFiles wl).filter (fun f => !(is_file_uploaded db f))))).ok
      · simp only [h3, if_true]
        have hm := runBatches_mono r fp alb db
          (chunks ((enumFiles wl).filter (fun f => !(is_file_uploaded db f)))) x y
        constructor
        · intro h
          have h2u := hm.1 h
          unfold is_file_uploaded at h2u ⊢
          rwa [files_set_folder_status]
        · intro h
          exact processed_mono_status _ fp y (hm.2 h)
      · simp only [h3, if_false, Bool.false_eq_true]
        exact runBatches_mono r fp alb db
          (chunks ((enumFiles wl).filter (fun f => !(is_file_uploaded db f)))) x y

theorem pf_album_mono (r : Remote) (wl : List (String × String)) (db : TransferDB)
    (fp : String) (ex : Option String) (x y : String) :
    (is_file_uploaded db x = true →
      is_file_uploaded (pf_album r wl db fp ex).db x = true) ∧
    (folder_status db y = some "processed" →
      folder_status (pf_album r wl db fp ex).db y = some "processed") := by
  unfold pf_album
  by_cases hb : (!(strStartsWith (strLower (basename fp)) "photos from")) && ex.isNone
  · simp only [hb, if_true]
    cases hc : r.create_album (basename fp) with
    | error e => exact ⟨fun h => h, fun h => h⟩
    | ok aid =>
      constructor
      · intro h
        refine (process_folder_rest_mono r wl _ fp (some aid) x y).1 ?_
        unfold is_file_uploaded at h ⊢
        rwa [files_set_folder_album]
      · intro h
        exact (process_folder_rest_mono r wl _ fp (some aid) x y).2
          (processed_mono_album db fp aid y h)
  · simp only [hb, if_false, Bool.false_eq_true]
    exact process_folder_rest_mono r wl db fp ex x y

theorem process_folder_mono (r : Remote) (w : String → List (String × String))
    (db : TransferDB) (fp : String) (x y : String) :
    (is_file_uploaded db x = true →
      is_file_uploaded (process_folder r w db fp).db x = true) ∧
    (folder_status db y = some "processed" →
      folder_status (process_folder r w db fp).db y = some "processed") := by
  unfold process_folder
  cases hr : get_folder_resumption_data db (normKey fp) with
  | none =>
    simp only [hr]
    exact pf_album_mono r (w (normKey fp)) db (normKey fp) none x y
  | some pr =>
    obtain ⟨a, s⟩ := pr
    simp only [hr]
    by_cases hs : s = "processed"
    · simp only [hs, if_true]
      exact ⟨fun h => h, fun h => h⟩
    · simp only [hs, if_false]
      exact pf_album_mono r (w (normKey fp)) db (normKey fp) a x y

theorem start_transfer_mono (r : Remote) (w : String → List (String × String))
    (db : TransferDB) (q : List String) (x y : String) :
    (is_file_uploaded db x = true →
      is_file_uploaded (start_transfer r w db q).db x = true) ∧
    (folder_status db y = some "processed" →
      folder_status (start_transfer r w db q).db y = some "processed") := by
  induction q generalizing db with
  | nil => exact ⟨fun h => h, fun h => h⟩
  | cons f rest ih =>
    unfold start_transfer
    by_cases ho : (process_folder r w db f).ok
    · simp only [ho, if_true]
      constructor
      · intro h
        exact (ih _).1 ((process_folder_mono r w db f x y).1 h)
      · intro h
        exact (ih _).2 ((process_folder_mono r w db f x y).2 h)
    · simp only [ho, if_false, Bool.false_eq_true]
      exact process_folder_mono r w db f x y

/-! ## Shape lemmas for `process_folder` -/

/-- Step 1 of the algorithm: a folder whose stored status is `"processed"`
returns `true` immediately, touching nothing and calling nothing. -/
theorem pf_shortcircuit (r : Remote) (w : String → List (String × String))
    (db : TransferDB) (fp : String) (hnorm : normKey fp = fp)
    (h : folder_status db fp = some "processed") :
    process_folder r w db fp = ⟨true, db, []⟩ := by
  unfold folder_status at h
  cases hl : lookupA db.folders (normKey fp) with
  | none => rw [hl] at h; simp at h
  | some rec =>
    rw [hl] at h
    simp at h
    unfold process_folder get_folder_resumption_data
    rw [hnorm, hl]
    simp [h]

/-- Every `true` return of `process_folder_rest` leaves a database obtained by
a final `set_folder_status _ fp "processed"`. -/
theorem pfr_ok_shape (r : Remote) (wl : List (String × String)) (db : TransferDB)
    (fp : String) (alb : Option String)
    (h : (process_folder_rest r wl db fp alb).ok = true) :
    ∃ d, (process_folder_rest r wl db fp alb).db = set_folder_status d fp "processed" := by
  unfold process_folder_rest at h ⊢
  by_cases h1 : (enumFiles wl).isEmpty
  · simp only [h1, if_true]
    exact ⟨db, rfl⟩
  · simp only [h1, if_false, Bool.false_eq_true] at h ⊢
    by_cases h2 : ((enumFiles wl).filter (fun f => !(is_file_uploaded db f))).isEmpty
    · simp only [h2, if_true]
      exact ⟨db, rfl⟩
    · simp only [h2, if_false, Bool.false_eq_true] at h ⊢
      by_cases h3 : (runBatches r fp alb db
          (chunks ((enumFiles wl).filter (fun f => !(is_file_uploaded db f))))).ok
      · simp only [h3, if_true]
        exact ⟨_, rfl⟩
      · simp [h3] at h

/-- Every `true` return of `process_folder` either happened through the
short-circuit of an already-`processed` folder (database untouched) or went
through a final `set_folder_status _ _ "processed"`. -/
theorem pf_ok_shape (r : Remote) (w : String → List (String × String))
    (db : TransferDB) (fp : String)
    (h : (process_folder r w db fp).ok = true) :
    ((process_folder r w db fp).db = db ∧
      folder_status db (normKey fp) = some "processed") ∨
    ∃ d, (process_folder r w db fp).db = set_folder_status d (normKey fp) "processed" := by
  have halb : ∀ (ex : Option String),
      (pf_album r (w (normKey fp)) db (normKey fp) ex).ok = true →
      ∃ d, (pf_album r (w (normKey fp)) db (normKey fp) ex).db =
        set_folder_status d (normKey fp) "processed" := by
    intro ex hx
    unfold pf_album at hx ⊢
    by_cases hb : (!(strStartsWith (strLower (basename (normKey fp))) "photos from")) && ex.isNone
    · simp only [hb, if_true] at hx ⊢
      cases hc : r.create_album (basename (normKey fp)) with
      | error e => simp only [hc] at hx; simp at hx
      | ok aid =>
        simp only [hc] at hx ⊢
        exact pfr_ok_shape r (w (normKey fp)) _ (normKey fp) (some aid) hx
    · simp only [hb, if_false, Bool.false_eq_true] at hx ⊢
      exact pfr_ok_shape r (w (normKey fp)) db (normKey fp) ex hx
  unfold process_folder at h ⊢
  cases hr : get_folder_resumption_data db (normKey fp) with
  | none =>
    simp only [hr] at h ⊢
    exact Or.inr (halb none h)
  | some pr =>
    obtain ⟨a, s⟩ := pr
    simp only [hr] at h ⊢
    by_cases hs : s = "processed"
    · simp only [hs, if_true]
      refine Or.inl ⟨trivial, ?_⟩
      unfold get_folder_resumption_data at hr
      unfold folder_status
      cases hl : lookupA db.folders (normKey (normKey fp)) with
      | none => rw [hl] at hr; simp at hr
      | some rec =>
        rw [hl] at hr
        simp at hr
        simp [hr.2, hs]
    · simp only [hs, if_false] at h ⊢
      exact Or.inr (halb a h)

/-! ## Lemmas about the upload loop and the batching -/

/-- When every upload of the batch succeeds, the loop collects one
`(token, path)` pair per file in order and aborts nothing. -/
theorem uploadBatch_all_ok (r : Remote) (b : List String) (tk : String → String)
    (h : ∀ p ∈ b, r.upload_bytes p = .ok (tk p)) :
    uploadBatch r b =
      ⟨false, b.map (fun p => (tk p, p)), b.map (fun p => Ev.upload p (.ok (tk p)))⟩ := by
  induction b with
  | nil => rfl
  | cons f rest ih =>
    have hf : r.upload_bytes f = .ok (tk f) := h f (by simp)
    have hrest : ∀ p ∈ rest, r.upload_bytes p = .ok (tk p) := fun p hp => h p (by simp [hp])
    unfold uploadBatch
    rw [hf, ih hrest]
    simp

/-- A quota-type upload failure stops the loop at the failing file: every
earlier (non-quota) file produced its upload event, the failing file's
error event is last, and nothing after it is attempted. -/
theorem uploadBatch_quota (r : Remote) (pre : List String) (f : String)
    (post : List String) (e : String)
    (hpre : ∀ p ∈ pre, ∃ t, r.upload_bytes p = .ok t)
    (hf : r.upload_bytes f = .error e) (hq : isQuotaError e = true) :
    (uploadBatch r (pre ++ f :: post)).quota = true ∧
    (uploadBatch r (pre ++ f :: post)).events =
      pre.map (fun p => Ev.upload p (r.upload_bytes p)) ++ [Ev.upload f (.error e)] := by
  induction pre with
  | nil =>
    simp only [List.nil_append, List.map_nil]
    unfold uploadBatch
    rw [hf]
    simp [hq]
  | cons p0 rest ih =>
    obtain ⟨t0, ht0⟩ := hpre p0 (by simp)
    have hrest : ∀ p ∈ rest, ∃ t, r.upload_bytes p = .ok t := fun p hp => hpre p (by simp [hp])
    have ihr := ih hrest
    simp only [List.cons_append]
    unfold uploadBatch
    rw [ht0]
    simp only [List.map_cons, List.cons_append]
    exact ⟨ihr.1, by rw [ihr.2, ht0]⟩

theorem chunksAux_nil (n : Nat) : chunksAux n [] = [] := by
  cases n <;> rfl

theorem chunksAux_fuel (n : Nat) : ∀ (m : Nat) (l : List String),
    l.length ≤ n → l.length ≤ m → chunksAux n l = chunksAux m l := by
  induction n with
  | zero =>
    intro m l hn _
    have hl : l = [] := List.eq_nil_of_length_eq_zero (Nat.le_zero.mp hn)
    rw [hl, chunksAux_nil, chunksAux_nil]
  | succ n ih =>
    intro m l hn hm
    cases l with
    | nil => rw [chunksAux_nil, chunksAux_nil]
    | cons x xs =>
      cases m with
      | zero => simp at hm
      | succ m2 =>
        show (x :: xs).take 10 :: chunksAux n ((x :: xs).drop 10) =
          (x :: xs).take 10 :: chunksAux m2 ((x :: xs).drop 10)
        have hd : ((x :: xs).drop 10).length = (x :: xs).length - 10 := List.length_drop ..
        have hlen : (x :: xs).length = xs.length + 1 := rfl
        congr 1
        refine ih m2 _ ?_ ?_
        · omega
        · omega

theorem chunks_nil : chunks [] = [] := rfl

/-- One unfolding of the batch partition on a nonempty list. -/
theorem chunks_cons (l : List String) (h : l ≠ []) :
    chunks l = l.take 10 :: chunks (l.drop 10) := by
  cases l with
  | nil => exact absurd rfl h
  | cons x xs =>
    show (x :: xs).take 10 :: chunksAux xs.length ((x :: xs).drop 10) =
      (x :: xs).take 10 :: chunks ((x :: xs).drop 10)
    unfold chunks
    have hd : ((x :: xs).drop 10).length = (x :: xs).length - 10 := List.length_drop ..
    have hlen : (x :: xs).length = xs.length + 1 := rfl
    congr 1
    refine chunksAux_fuel xs.length _ _ ?_ ?_
    · omega
    · omega

/-- A nonempty list of at most `BATCH_SIZE` files forms a single batch. -/
theorem chunks_small (l : List String) (h : l ≠ []) (hlen : l.length ≤ 10) :
    chunks l = [l] := by
  rw [chunks_cons l h, List.take_of_length_le hlen, List.drop_eq_nil_of_le hlen, chunks_nil]

/-- A list starting with a full batch splits off exactly that batch. -/
theorem chunks_full (b1 l2 : List String) (h : b1.length = 10) :
    chunks (b1 ++ l2) = b1 :: chunks l2 := by
  have hne : b1 ++ l2 ≠ [] := by
    intro c
    have : b1 = [] := by
      cases b1 with
      | nil => rfl
      | cons a l => simp at c
    rw [this] at h
    simp at h
  rw [chunks_cons _ hne, ← h, List.take_left, List.drop_left]

/-! ## Evaluation lemmas for the folder-processing steps -/

/-- A folder whose record already stores an album id (whatever its name)
skips album creation and goes straight to enumeration and batching. -/
theorem pf_existing_album (r : Remote) (w : String → List (String × String))
    (db : TransferDB) (fp aid st : String)
    (h : get_folder_resumption_data db (normKey fp) = some (some aid, st))
    (hst : st ≠ "processed") :
    process_folder r w db fp =
      process_folder_rest r (w (normKey fp)) db (normKey fp) (some aid) := by
  unfold process_folder
  simp only [h, hst, if_false]
  unfold pf_album
  simp

/-- With a known nonempty enumeration of not-yet-uploaded files, the rest of
the algorithm reduces to the batch loop followed by the final marking. -/
theorem pfr_eval (r : Remote) (wl : List (String × String)) (db : TransferDB)
    (fp : String) (alb : Option String) (fs : List String)
    (henum : enumFiles wl = fs) (hne : fs ≠ [])
    (hdedup : ∀ x ∈ fs, is_file_uploaded db x = false) :
    process_folder_rest r wl db fp alb =
      if (runBatches r fp alb db (chunks fs)).ok then
        ⟨true, set_folder_status (runBatches r fp alb db (chunks fs)).db fp "processed",
          (runBatches r fp alb db (chunks fs)).events⟩
      else ⟨false, (runBatches r fp alb db (chunks fs)).db,
        (runBatches r fp alb db (chunks fs)).events⟩ := by
  have hfil : fs.filter (fun f => !(is_file_uploaded db f)) = fs := by
    refine List.filter_eq_self.mpr ?_
    intro a ha
    rw [hdedup a ha]
    rfl
  have hie : fs.isEmpty = false := by
    cases fs with
    | nil => exact absurd rfl hne
    | cons a l => rfl
  unfold process_folder_rest
  simp only [henum, hfil, hie]
  simp

/-! ## Per-key behaviour of the file table -/

theorem is_file_uploaded_mark_self (db : TransferDB) (p fp x : String)
    (h : normKey x = normKey p) :
    is_file_uploaded (mark_file_uploaded db p fp) x = true := by
  unfold is_file_uploaded mark_file_uploaded
  rw [h]
  cases hl : lookupA db.files (normKey p) with
  | some r0 =>
    simp only [lookupA_updateA_self, hl]
    simp
  | none =>
    rw [lookupA_append_none _ _ _ hl]
    simp [lookupA]

theorem is_file_uploaded_mark_ne (db : TransferDB) (p fp x : String)
    (h : normKey x ≠ normKey p) :
    is_file_uploaded (mark_file_uploaded db p fp) x = is_file_uploaded db x := by
  unfold is_file_uploaded mark_file_uploaded
  cases hl : lookupA db.files (normKey p) with
  | some r0 =>
    simp only [lookupA_updateA_ne _ _ _ _ h]
  | none =>
    cases hx : lookupA db.files (normKey x) with
    | some rx => rw [lookupA_append_some _ _ _ _ hx]
    | none =>
      have hne2 : ¬(normKey p = normKey x) := fun c => h c.symm
      rw [lookupA_append_none _ _ _ hx]
      simp [lookupA, hne2]

theorem folder_status_set_processed_of_some (db : TransferDB) (fp : String) (rec : FolderRec)
    (h : lookupA db.folders (normKey fp) = some rec) :
    folder_status (set_folder_status db fp "processed") fp = some "processed" := by
  unfold folder_status set_folder_status
  simp only [lookupA_updateA_self, h]
  simp

/-! ## Step lemmas for the batch loop -/

theorem runBatches_nil (r : Remote) (fp : String) (alb : Option String) (db : TransferDB) :
    runBatches r fp alb db [] = ⟨true, db, []⟩ := rfl

/-- A quota-type abort inside the upload loop of a batch aborts the whole
folder with the database untouched and no later batch attempted. -/
theorem runBatches_quota (r : Remote) (fp : String) (alb : Option String) (db : TransferDB)
    (b : List String) (rest : List (List String))
    (hq : (uploadBatch r b).quota = true) :
    runBatches r fp alb db (b :: rest) = ⟨false, db, (uploadBatch r b).events⟩ := by
  simp only [runBatches]
  simp [hq]

/-- A batch whose commit fails with a non-quota error marks nothing and
processing continues with the next batch on the unchanged database. -/
theorem runBatches_commit_fail (r : Remote) (fp : String) (alb : Option String)
    (db : TransferDB) (b : List String) (rest : List (List String)) (e : String)
    (hq : (uploadBatch r b).quota = false)
    (ht : (uploadBatch r b).pairs.map Prod.fst ≠ [])
    (hc : r.batch_create ((uploadBatch r b).pairs.map Prod.fst) alb = .error e)
    (he : isQuotaError e = false) :
    runBatches r fp alb db (b :: rest) =
      ⟨(runBatches r fp alb db rest).ok, (runBatches r fp alb db rest).db,
        (uploadBatch r b).events ++
          Ev.commit ((uploadBatch r b).pairs.map Prod.fst) alb (.error e) ::
            (runBatches r fp alb db rest).events⟩ := by
  have ht2 : (uploadBatch r b).pairs ≠ [] := by
    intro c
    exact ht (by rw [c]; rfl)
  simp only [runBatches]
  simp [hq, ht, ht2, hc, he]

/-- A batch whose commit fails with a quota-type error aborts the whole
folder, leaving the database untouched. -/
theorem runBatches_commit_quota (r : Remote) (fp : String) (alb : Option String)
    (db : TransferDB) (b : List String) (rest : List (List String)) (e : String)
    (hq : (uploadBatch r b).quota = false)
    (ht : (uploadBatch r b).pairs.map Prod.fst ≠ [])
    (hc : r.batch_create ((uploadBatch r b).pairs.map Prod.fst) alb = .error e)
    (he : isQuotaError e = true) :
    runBatches r fp alb db (b :: rest) =
      ⟨false, db, (uploadBatch r b).events ++
        [Ev.commit ((uploadBatch r b).pairs.map Prod.fst) alb (.error e)]⟩ := by
  have ht2 : (uploadBatch r b).pairs ≠ [] := by
    intro c
    exact ht (by rw [c]; rfl)
  simp only [runBatches]
  simp [hq, ht, ht2, hc, he]

/-- A batch whose commit succeeds marks every collected path uploaded and
continues with the next batch. -/
theorem runBatches_commit_ok (r : Remote) (fp : String) (alb : Option String)
    (db : TransferDB) (b : List String) (rest : List (List String)) (ids : List String)
    (hq : (uploadBatch r b).quota = false)
    (ht : (uploadBatch r b).pairs.map Prod.fst ≠ [])
    (hc : r.batch_create ((uploadBatch r b).pairs.map Prod.fst) alb = .ok ids) :
    runBatches r fp alb db (b :: rest) =
      ⟨(runBatches r fp alb
          (((uploadBatch r b).pairs.map Prod.snd).foldl
            (fun d p => mark_file_uploaded d p fp) db) rest).ok,
        (runBatches r fp alb
          (((uploadBatch r b).pairs.map Prod.snd).foldl
            (fun d p => mark_file_uploaded d p fp) db) rest).db,
        (uploadBatch r b).events ++
          Ev.commit ((uploadBatch r b).pairs.map Prod.fst) alb (.ok ids) ::
            (runBatches r fp alb
              (((uploadBatch r b).pairs.map Prod.snd).foldl
                (fun d p => mark_file_uploaded d p fp) db) rest).events⟩ := by
  have ht2 : (uploadBatch r b).pairs ≠ [] := by
    intro c
    exact ht (by rw [c]; rfl)
  simp only [runBatches]
  simp [hq, ht, ht2, hc]

/-- A batch that collected no token at all (every upload failed non-quota)
commits nothing and continues with the next batch. -/
theorem runBatches_no_tokens (r : Remote) (fp : String) (alb : Option String)
    (db : TransferDB) (b : List String) (rest : List (List String))
    (hq : (uploadBatch r b).quota = false)
    (ht : (uploadBatch r b).pairs.map Prod.fst = []) :
    runBatches r fp alb db (b :: rest) =
      ⟨(runBatches r fp alb db rest).ok, (runBatches r fp alb db rest).db,
        (uploadBatch r b).events ++ (runBatches r fp alb db rest).events⟩ := by
  simp only [runBatches]
  simp [hq, ht]

/-- After `set_folder_album` the folder's record exists and stores the album. -/
theorem set_folder_album_lookup (db : TransferDB) (p a : String) :
    ∃ rec, lookupA (set_folder_album db p a).folders (normKey p) = some rec ∧
      rec.album_id = some a := by
  unfold set_folder_album
  cases hl : lookupA db.folders (normKey p) with
  | some r0 =>
    simp only [hl, lookupA_updateA_self]
    exact ⟨_, rfl, rfl⟩
  | none =>
    simp only [hl]
    rw [lookupA_append_none _ _ _ hl]
    simp [lookupA]

/-! ## Concrete scenarios used by the claim theorems -/

/-- Remote oracle for the C5 run (never consulted: the folder is empty). -/
def remC5 : Remote :=
  ⟨fun _ => .error "unexpected", fun _ => .error "unexpected", fun _ _ => .error "unexpected"⟩

/-- Walk oracle for the C5 run: the folder holds no files at all. -/
def walkC5 : String → List (String × String) := fun _ => []

/-- C5: the claim says every folder the algorithm touches for the first time
gets a folder record (created as `pending`) and that a `true` return leaves
the stored status `processed`, including for non-album folders.  The code
disagrees: `set_folder_status` is a plain SQL `UPDATE`, and `process_folder`
only ever creates a folder record through `set_folder_album`, which it calls
solely for album folders whose album was just created.  On the first touch of
the non-album folder `/r/photos from 2020` (empty, so trivially complete) the
run returns `true` yet the store is left completely empty: no record is
created, nothing is marked `processed`, and the final
`set_folder_status(..., "processed")` is a silent no-op. -/
theorem C5_set_folder_status_noop_on_first_touch :
    process_folder remC5 walkC5 emptyDB "/r/photos from 2020" =
      ⟨true, emptyDB, []⟩ ∧
    folder_status (process_folder remC5 walkC5 emptyDB "/r/photos from 2020").db
      "/r/photos from 2020" = none := by
  constructor
  · rfl
  · rfl

/-- C7 counterexample: the claim says the store's key normalization is case-
insensitive, so a read under `a/f.jpg` must see the record written under
`A/F.JPG`.  It does not: `Path(...).as_posix()` does no case folding, the two
spellings are distinct keys, and the read misses the write. -/
theorem C7_counterexample_case_sensitive :
    decide (normKey "A/F.JPG" = normKey "a/f.jpg") = false ∧
    is_file_uploaded (mark_file_uploaded emptyDB "A/F.JPG" "A") "a/f.jpg" = false := by
  constructor
  · decide
  · rfl

/-- C7 (amended): every store operation applies the same normalization —
`Path(p).as_posix()`, which canonicalizes separators and `.` components but
keeps letter case — before each read and write, so any two spellings with
the same normalized form hit one key: a read under either spelling sees a
write under the other, for the file table, the album upsert and the status
update alike. -/
theorem C7_same_key_read_write (db : TransferDB) (p q folderp a : String)
    (h : normKey p = normKey q) :
    is_file_uploaded (mark_file_uploaded db p folderp) q = true ∧
    (get_folder_resumption_data (set_folder_album db p a) q).map Prod.fst = some (some a) ∧
    folder_status (set_folder_status (set_folder_album db p a) p "processed") q =
      some "processed" := by
  refine ⟨is_file_uploaded_mark_self db p folderp q h.symm, ?_, ?_⟩
  · unfold get_folder_resumption_data
    rw [← h]
    obtain ⟨rec, hrec, halb⟩ := set_folder_album_lookup db p a
    rw [hrec]
    simp [halb]
  · obtain ⟨rec, hrec, halb⟩ := set_folder_album_lookup db p a
    unfold folder_status set_folder_status
    rw [← h]
    simp only [lookupA_updateA_self, hrec]
    simp

/-- Witness for C7: a separator-redundant spelling and its normal form share
one key, and the read sees the write. -/
theorem C7_same_key_read_write_witness :
    normKey "a//b/./c.jpg" = normKey "a/b/c.jpg" ∧
    is_file_uploaded (mark_file_uploaded emptyDB "a//b/./c.jpg" "a") "a/b/c.jpg" = true :=
  ⟨by decide,
    (C7_same_key_read_write emptyDB "a//b/./c.jpg" "a/b/c.jpg" "a" "X" (by decide)).1⟩

/-- The exact condition under which `process_folder` calls `create_album`:
the folder is not already `processed`, its name does not start (case-
insensitively) with `"photos from"`, and no album id is stored for it. -/
def needs_create (db : TransferDB) (fp : String) : Bool :=
  match get_folder_resumption_data db fp with
  | some (a, s) =>
    (s != "processed") && (!(strStartsWith (strLower (basename fp)) "photos from")) && a.isNone
  | none => !(strStartsWith (strLower (basename fp)) "photos from")

/-- Remote oracle for the C6 counterexample: album creation succeeds. -/
def remC6 : Remote :=
  ⟨fun t => if t = "pics" then .ok "A1" else .error "unexpected",
    fun _ => .error "unexpected", fun _ _ => .error "unexpected"⟩

/-- Walk oracle for the C6 counterexample: the folder holds no files. -/
def walkC6 : String → List (String × String) := fun _ => []

/-- C6 counterexample: the claim says a folder with zero matching media files
is handled with zero remote calls.  For a first-touch album folder the code
creates the remote album before enumerating anything, so the empty folder
`/x/pics` costs one `CreateAlbum` call. -/
theorem C6_counterexample_create_album_called :
    enumFiles (walkC6 "/x/pics") = [] ∧
    (process_folder remC6 walkC6 emptyDB "/x/pics").ok = true ∧
    (process_folder remC6 walkC6 emptyDB "/x/pics").events =
      [Ev.createAlbum "pics" (.ok "A1")] := by
  refine ⟨rfl, rfl, rfl⟩

/-- C6 (amended): a folder with zero matching media files returns `true` from
one call and issues no `UploadFile` and no `CommitBatch` call; a single
`CreateAlbum` call is issued first exactly when the folder is an album
folder without a stored album id (assumed to succeed here — if it fails the
folder aborts), and the folder is marked `processed` in the store only when
a folder record exists afterwards (created here by `set_folder_album` for
album folders; a recordless non-album folder stays unrecorded because
`set_folder_status` is update-only). -/
theorem C6_empty_folder (r : Remote) (w : String → List (String × String))
    (db : TransferDB) (fp : String) (hnorm : normKey fp = fp)
    (henum : enumFiles (w fp) = [])
    (halb : needs_create db fp = false ∨ ∃ a, r.create_album (basename fp) = .ok a) :
    (process_folder r w db fp).ok = true ∧
    (needs_create db fp = true → ∃ a, (process_folder r w db fp).events =
      [Ev.createAlbum (basename fp) (.ok a)]) ∧
    (needs_create db fp = false → (process_folder r w db fp).events = []) ∧
    (∀ rec, lookupA (process_folder r w db fp).db.folders fp = some rec →
      rec.status = "processed") := by
  have hie : (enumFiles (w fp)).isEmpty = true := by rw [henum]; rfl
  unfold process_folder
  rw [hnorm]
  unfold needs_create at halb ⊢
  cases hr : get_folder_resumption_data db fp with
  | some pr =>
    obtain ⟨a, s⟩ := pr
    simp only [hr] at halb ⊢
    by_cases hs : s = "processed"
    · simp only [hs, if_true]
      refine ⟨by trivial, ?_, fun _ => by trivial, ?_⟩
      · intro hneed
        simp [hs] at hneed
      · intro rec hrec
        unfold get_folder_resumption_data at hr
        rw [hnorm] at hr
        rw [hrec] at hr
        simp at hr
        rw [hr.2, hs]
    · simp only [hs, if_false]
      unfold pf_album
      by_cases hb : (!(strStartsWith (strLower (basename fp)) "photos from")) && a.isNone
      · simp only [hb, if_true]
        have hsne : (s != "processed") = true := by simp [hs]
        have hneed : ((s != "processed") &&
            (!(strStartsWith (strLower (basename fp)) "photos from")) && a.isNone) = true := by
          rw [Bool.and_assoc, hsne, hb]
          rfl
        rcases halb with hf | ⟨aid, hok⟩
        · rw [hneed] at hf
          exact absurd hf (by simp)
        · rw [hok]
          unfold process_folder_rest
          simp only [hie, if_true]
          refine ⟨by trivial, fun _ => ⟨aid, by trivial⟩, ?_, ?_⟩
          · intro hfneed
            rw [hneed] at hfneed
            simp at hfneed
          · intro rec hrec
            refine set_folder_status_lookup_processed (set_folder_album db fp aid) fp rec ?_
            rw [hnorm]
            exact hrec
      · simp only [hb, if_false]
        unfold process_folder_rest
        simp only [hie, if_true]
        have hneedf : ((s != "processed") &&
            (!(strStartsWith (strLower (basename fp)) "photos from")) && a.isNone) = false := by
          rw [Bool.and_assoc]
          simp [hb]
        refine ⟨by trivial, ?_, fun _ => by trivial, ?_⟩
        · intro hneed
          rw [hneedf] at hneed
          exact absurd hneed (by simp)
        · intro rec hrec
          refine set_folder_status_lookup_processed db fp rec ?_
          rw [hnorm]
          exact hrec
  | none =>
    simp only [hr] at halb ⊢
    unfold pf_album
    by_cases hb : (!(strStartsWith (strLower (basename fp)) "photos from")) = true
    · have hb2 : ((!(strStartsWith (strLower (basename fp)) "photos from")) &&
          (none : Option String).isNone) = true := by
        rw [hb]
        rfl
      simp only [hb2, if_true]
      rcases halb with hf | ⟨aid, hok⟩
      · rw [hb] at hf
        exact absurd hf (by simp)
      · rw [hok]
        unfold process_folder_rest
        simp only [hie, if_true]
        refine ⟨by trivial, fun _ => ⟨aid, by trivial⟩, ?_, ?_⟩
        · intro hfneed
          rw [hb] at hfneed
          exact absurd hfneed (by simp)
        · intro rec hrec
          refine set_folder_status_lookup_processed (set_folder_album db fp aid) fp rec ?_
          rw [hnorm]
          exact hrec
    · have hbf : (!(strStartsWith (strLower (basename fp)) "photos from")) = false := by
        simp at hb
        simp [hb]
      have hb2 : ((!(strStartsWith (strLower (basename fp)) "photos from")) &&
          (none : Option String).isNone) = false := by
        rw [hbf]
        rfl
      simp only [hb2, if_false]
      unfold process_folder_rest
      simp only [hie, if_true]
      refine ⟨by trivial, ?_, fun _ => by trivial, ?_⟩
      · intro hneed
        rw [hbf] at hneed
        exact absurd hneed (by simp)
      · intro rec hrec
        refine set_folder_status_lookup_processed db fp rec ?_
        rw [hnorm]
        exact hrec

/-- Witness for C6 (amended): the empty album folder of the counterexample
run satisfies the amended claim: `true`, one successful `CreateAlbum`, and
its (now existing) record ends `processed`. -/
theorem C6_empty_folder_witness :
    (process_folder remC6 walkC6 emptyDB "/x/pics").ok = true ∧
    lookupA (process_folder remC6 walkC6 emptyDB "/x/pics").db.folders "/x/pics" =
      some ⟨some "A1", "processed"⟩ ∧
    FolderRec.status ⟨some "A1", "processed"⟩ = "processed" := by
  have h := C6_empty_folder remC6 walkC6 emptyDB "/x/pics" (by decide) rfl
    (Or.inr ⟨"A1", by decide⟩)
  exact ⟨h.1, by decide, h.2.2.2 ⟨some "A1", "processed"⟩ (by decide)⟩

/-- Remote oracle for the C2 counterexample: every upload fails with a
non-quota error. -/
def remC2 : Remote :=
  ⟨fun _ => .error "unexpected", fun _ => .error "disk read failure",
    fun _ _ => .error "unexpected"⟩

/-- Walk oracle for the C2 counterexample: one image in a non-album folder. -/
def walkC2 : String → List (String × String) := fun p =>
  if p = "/r/photos from 2020" then [("/r/photos from 2020", "a.jpg")] else []

/-- C2 counterexample: the claim says the second of two consecutive
`ProcessFolder` calls issues zero remote calls.  For the non-album folder
`/r/photos from 2020` (no record is ever created, so the final
`set_folder_status` no-ops and the short-circuit never fires) whose one file
keeps failing with a non-quota error, both calls return `true`, yet the
second call repeats the `UploadFile` attempt: one remote call, not zero. -/
theorem C2_counterexample_second_call_uploads :
    (process_folder remC2 walkC2 emptyDB "/r/photos from 2020").ok = true ∧
    (process_folder remC2 walkC2
      (process_folder remC2 walkC2 emptyDB "/r/photos from 2020").db
      "/r/photos from 2020").ok = true ∧
    (process_folder remC2 walkC2
      (process_folder remC2 walkC2 emptyDB "/r/photos from 2020").db
      "/r/photos from 2020").events =
      [Ev.upload "/r/photos from 2020/a.jpg" (.error "disk read failure")] := by
  refine ⟨by decide, by decide, by decide⟩

/-- C2 (amended): if the first call returns `true` and a folder record exists
afterwards (as is the case for every album folder, whose record is created
with the album), then the stored status is `processed` and the second call
short-circuits: it returns `true`, changes nothing, and issues zero remote
calls.  Without a record (first-touch non-album folders) the `processed`
mark is lost and the second call may re-attempt failed files. -/
theorem C2_second_call_short_circuits (r : Remote) (w : String → List (String × String))
    (db : TransferDB) (fp : String) (hnorm : normKey fp = fp)
    (h1 : (process_folder r w db fp).ok = true)
    (h2 : (lookupA (process_folder r w db fp).db.folders fp).isSome = true) :
    folder_status (process_folder r w db fp).db fp = some "processed" ∧
    process_folder r w (process_folder r w db fp).db fp =
      ⟨true, (process_folder r w db fp).db, []⟩ := by
  have hstat : folder_status (process_folder r w db fp).db fp = some "processed" := by
    rcases pf_ok_shape r w db fp h1 with ⟨hdb, hpr⟩ | ⟨d, hd⟩
    · rw [hdb]
      rw [hnorm] at hpr
      exact hpr
    · rw [hnorm] at hd
      rw [hd] at h2 ⊢
      cases hrec : lookupA (set_folder_status d fp "processed").folders fp with
      | none => rw [hrec] at h2; simp at h2
      | some rec =>
        have hst := set_folder_status_lookup_processed d fp rec (by rw [hnorm]; exact hrec)
        unfold folder_status
        rw [hnorm, hrec]
        simp [hst]
  exact ⟨hstat, pf_shortcircuit r w _ fp hnorm hstat⟩

/-- Remote oracle for the C2 witness: one album folder with one image,
everything succeeds. -/
def remC2w : Remote :=
  ⟨fun t => if t = "A" then .ok "alb9" else .error "unexpected",
    fun p => if p = "/q/A/f.jpg" then .ok "tok9" else .error "unexpected",
    fun toks alb =>
      if toks = ["tok9"] ∧ alb = some "alb9" then .ok ["m9"] else .error "unexpected"⟩

/-- Walk oracle for the C2 witness. -/
def walkC2w : String → List (String × String) := fun p =>
  if p = "/q/A" then [("/q/A", "f.jpg")] else []

/-- Witness for C2 (amended): after a fully successful first run on the album
folder `/q/A`, the second call returns `true`, leaves the store unchanged
and issues zero remote calls. -/
theorem C2_second_call_short_circuits_witness :
    (process_folder remC2w walkC2w emptyDB "/q/A").ok = true ∧
    process_folder remC2w walkC2w (process_folder remC2w walkC2w emptyDB "/q/A").db "/q/A" =
      ⟨true, (process_folder remC2w walkC2w emptyDB "/q/A").db, []⟩ :=
  ⟨by decide,
    (C2_second_call_short_circuits remC2w walkC2w emptyDB "/q/A"
      (by decide) (by decide) (by decide)).2⟩

theorem is_file_uploaded_set_status (db : TransferDB) (p st x : String) :
    is_file_uploaded (set_folder_status db p st) x = is_file_uploaded db x := by
  unfold is_file_uploaded
  rw [files_set_folder_status]

/-- Remote oracle for the C4 scenario. -/
def remC4 : Remote :=
  ⟨fun t => if t = "A" then .ok "alb1" else .error "unexpected",
    fun p =>
      if p = "/r/A/f1.jpg" then .ok "t1"
      else if p = "/r/A/f2.png" then .ok "t2"
      else if p = "/r/A/f3.mp4" then .ok "t3"
      else .error "unexpected",
    fun toks alb =>
      if toks = ["t1", "t2"] ∧ alb = some "alb1" then .ok ["m1", "m2"]
      else .error "unexpected"⟩

/-- Walk oracle for the C4 scenario: `A` holds `f1.jpg`, `f2.png`, `f3.mp4`. -/
def walkC4 : String → List (String × String) := fun p =>
  if p = "/r/A" then [("/r/A", "f1.jpg"), ("/r/A", "f2.png"), ("/r/A", "f3.mp4")] else []

/-- C4 counterexample: the claim says the supported extension set covers
image and video types and that the `[f1.jpg, f2.png, f3.mp4]` folder commits
one batch of 3 handles after which all three files are uploaded.  The code's
`image_extensions` holds only image types, `.mp4` is not selected, the
commit carries 2 handles, and `f3.mp4` is never recorded uploaded. -/
theorem C4_counterexample_mp4_excluded :
    enumFiles (walkC4 "/r/A") = ["/r/A/f1.jpg", "/r/A/f2.png"] ∧
    strLower (splitextExt "f3.mp4") = ".mp4" ∧
    decide (".mp4" ∈ image_extensions) = false ∧
    (process_folder remC4 walkC4 emptyDB "/r/A").events =
      [Ev.createAlbum "A" (.ok "alb1"), Ev.upload "/r/A/f1.jpg" (.ok "t1"),
        Ev.upload "/r/A/f2.png" (.ok "t2"),
        Ev.commit ["t1", "t2"] (some "alb1") (.ok ["m1", "m2"])] ∧
    is_file_uploaded (process_folder remC4 walkC4 emptyDB "/r/A").db "/r/A/f3.mp4" = false := by
  refine ⟨by decide, by decide, by decide, by decide, by decide⟩

/-- C4 (amended): enumeration selects exactly the files whose lower-cased
extension lies in the image-only set `{.jpg, .jpeg, .png, .gif, .bmp,
.webp}` — video files such as `.mp4` are not selected.  For the folder `A`
with `[f1.jpg, f2.png, f3.mp4]` and batch size 10 ≥ 2, processing issues one
`CreateAlbum`, one `UploadFile` for each of the two image files, and one
`CommitBatch` with 2 handles, after which the two image files are recorded
uploaded and the folder is recorded `processed`; `f3.mp4` stays unknown to
the store. -/
theorem C4_scenario_images_only :
    process_folder remC4 walkC4 emptyDB "/r/A" =
      ⟨true,
        ⟨[("/r/A", ⟨some "alb1", "processed"⟩)],
          [("/r/A/f1.jpg", ⟨"/r/A", "uploaded"⟩), ("/r/A/f2.png", ⟨"/r/A", "uploaded"⟩)]⟩,
        [Ev.createAlbum "A" (.ok "alb1"), Ev.upload "/r/A/f1.jpg" (.ok "t1"),
          Ev.upload "/r/A/f2.png" (.ok "t2"),
          Ev.commit ["t1", "t2"] (some "alb1") (.ok ["m1", "m2"])]⟩ ∧
    (∀ root name : String,
      enumFiles [(root, name)] =
        if strLower (splitextExt name) ∈ image_extensions then [osJoin root name] else []) := by
  constructor
  · decide
  · intro root name
    unfold enumFiles
    by_cases h : strLower (splitextExt name) ∈ image_extensions
    · simp [h]
    · simp [h]

/-- Folder record for the C1 counterexample: album stored, still pending. -/
def dbC1 : TransferDB := ⟨[("/r/B", ⟨some "alb", "pending"⟩)], []⟩

/-- Remote oracle for the C1 counterexample: upload succeeds, every commit
fails with a non-quota error. -/
def remC1 : Remote :=
  ⟨fun _ => .error "unexpected",
    fun p => if p = "/r/B/f1.jpg" then .ok "t1" else .error "unexpected",
    fun _ _ => .error "backend exploded"⟩

/-- Walk oracle for the C1 counterexample. -/
def walkC1 : String → List (String × String) := fun p =>
  if p = "/r/B" then [("/r/B", "f1.jpg")] else []

/-- C1 counterexample: the claim says files of a batch whose commit failed
with a non-quota error are retried as not-yet-uploaded on the next run.  In
the code the run still ends with `set_folder_status(..., "processed")`, so
the next `process_folder` call short-circuits: here the commit of `f1.jpg`
fails non-quota and the file stays unmarked, yet the second run returns
immediately with zero remote calls — the file is never retried. -/
theorem C1_counterexample_no_retry_after_commit_failure :
    (process_folder remC1 walkC1 dbC1 "/r/B").ok = true ∧
    (process_folder remC1 walkC1 dbC1 "/r/B").events =
      [Ev.upload "/r/B/f1.jpg" (.ok "t1"),
        Ev.commit ["t1"] (some "alb") (.error "backend exploded")] ∧
    isQuotaError "backend exploded" = false ∧
    is_file_uploaded (process_folder remC1 walkC1 dbC1 "/r/B").db "/r/B/f1.jpg" = false ∧
    process_folder remC1 walkC1 (process_folder remC1 walkC1 dbC1 "/r/B").db "/r/B" =
      ⟨true, (process_folder remC1 walkC1 dbC1 "/r/B").db, []⟩ := by
  refine ⟨by decide, by decide, by decide, by decide, by decide⟩

/-- C1 (amended): a file is recorded `uploaded` only through a successful
batch commit; when a batch's commit fails with a non-quota error none of
that batch's files are marked and processing continues with the next batch
(here: the full first batch `b1` stays unmarked while the second batch's
file `g` is committed and marked).  However, when the folder has a store
record — the `hr` hypothesis, satisfied by every album folder since its
record is created together with its album — the run still ends with the
folder marked `processed`, so the next `process_folder` call short-circuits
and the unmarked files are not retried on the next run.  (A recordless
non-album folder is the opposite case: the `processed` `UPDATE` no-ops and
a later call does re-attempt the unmarked files, as C2's counterexample
shows.) -/
theorem C1_commit_failure_batch_unmarked (r : Remote)
    (w : String → List (String × String)) (db : TransferDB) (fp aid st : String)
    (b1 : List String) (g : String) (tk : String → String) (gtok ce : String)
    (ids : List String)
    (hnorm : normKey fp = fp)
    (hr : get_folder_resumption_data db fp = some (some aid, st))
    (hst : st ≠ "processed")
    (henum : enumFiles (w fp) = b1 ++ [g])
    (hlen : b1.length = 10)
    (hdedup : ∀ x ∈ b1 ++ [g], is_file_uploaded db x = false)
    (hup : ∀ p ∈ b1, r.upload_bytes p = .ok (tk p))
    (hgup : r.upload_bytes g = .ok gtok)
    (hcfail : r.batch_create (b1.map tk) (some aid) = .error ce)
    (hnq : isQuotaError ce = false)
    (hcok : r.batch_create [gtok] (some aid) = .ok ids) :
    (process_folder r w db fp).ok = true ∧
    (∀ x ∈ b1, normKey x ≠ normKey g →
      is_file_uploaded (process_folder r w db fp).db x = false) ∧
    is_file_uploaded (process_folder r w db fp).db g = true ∧
    folder_status (process_folder r w db fp).db fp = some "processed" ∧
    process_folder r w (process_folder r w db fp).db fp =
      ⟨true, (process_folder r w db fp).db, []⟩ := by
  have hb1ne : b1 ≠ [] := by
    intro c
    rw [c] at hlen
    simp at hlen
  have hfs_ne : b1 ++ [g] ≠ [] := by simp
  have hrn : get_folder_resumption_data db (normKey fp) = some (some aid, st) := by
    rw [hnorm]
    exact hr
  have hpf : process_folder r w db fp = process_folder_rest r (w fp) db fp (some aid) := by
    have h0 := pf_existing_album r w db fp aid st hrn hst
    rwa [hnorm] at h0
  have hchunks : chunks (b1 ++ [g]) = [b1, [g]] := by
    rw [chunks_full b1 [g] hlen, chunks_small [g] (by simp) (by simp)]
  have hub1 := uploadBatch_all_ok r b1 tk hup
  have hubg := uploadBatch_all_ok r [g] (fun _ => gtok) (by
    intro p hp
    simp at hp
    rw [hp]
    exact hgup)
  have hq1 : (uploadBatch r b1).quota = false := by rw [hub1]
  have hpairs1 : (uploadBatch r b1).pairs.map Prod.fst = b1.map tk := by
    rw [hub1]
    simp [List.map_map, Function.comp]
  have ht1 : (uploadBatch r b1).pairs.map Prod.fst ≠ [] := by
    rw [hpairs1]
    simp [hb1ne]
  have hc1 : r.batch_create ((uploadBatch r b1).pairs.map Prod.fst) (some aid) = .error ce := by
    rw [hpairs1]
    exact hcfail
  have hstep1 := runBatches_commit_fail r fp (some aid) db b1 [[g]] ce hq1 ht1 hc1 hnq
  have hq2 : (uploadBatch r [g]).quota = false := by rw [hubg]
  have hpairs2 : (uploadBatch r [g]).pairs.map Prod.fst = [gtok] := by
    rw [hubg]
    rfl
  have ht2 : (uploadBatch r [g]).pairs.map Prod.fst ≠ [] := by
    rw [hpairs2]
    simp
  have hc2 : r.batch_create ((uploadBatch r [g]).pairs.map Prod.fst) (some aid) = .ok ids := by
    rw [hpairs2]
    exact hcok
  have hstep2 := runBatches_commit_ok r fp (some aid) db [g] [] ids hq2 ht2 hc2
  have hpaths2 : (uploadBatch r [g]).pairs.map Prod.snd = [g] := by
    rw [hubg]
    rfl
  have hok : (runBatches r fp (some aid) db (chunks (b1 ++ [g]))).ok = true := by
    rw [hchunks, hstep1]
    show (runBatches r fp (some aid) db [[g]]).ok = true
    rw [hstep2, hpaths2]
    rfl
  have hdbeq : (runBatches r fp (some aid) db (chunks (b1 ++ [g]))).db =
      mark_file_uploaded db g fp := by
    rw [hchunks, hstep1]
    show (runBatches r fp (some aid) db [[g]]).db = _
    rw [hstep2, hpaths2]
    rfl
  have hrun : process_folder r w db fp =
      ⟨true, set_folder_status (mark_file_uploaded db g fp) fp "processed",
        (runBatches r fp (some aid) db (chunks (b1 ++ [g]))).events⟩ := by
    rw [hpf, pfr_eval r (w fp) db fp (some aid) (b1 ++ [g]) henum hfs_ne hdedup]
    rw [if_pos hok, hdbeq]
  have hstat : folder_status (process_folder r w db fp).db fp = some "processed" := by
    rw [hrun]
    have hrec : ∃ rec, lookupA (mark_file_uploaded db g fp).folders (normKey fp) =
        some rec := by
      rw [folders_mark_file_uploaded]
      unfold get_folder_resumption_data at hr
      cases hl : lookupA db.folders (normKey fp) with
      | none => rw [hl] at hr; simp at hr
      | some rec => exact ⟨rec, rfl⟩
    obtain ⟨rec, hrec⟩ := hrec
    exact folder_status_set_processed_of_some _ fp rec hrec
  refine ⟨by rw [hrun], ?_, ?_, hstat, pf_shortcircuit r w _ fp hnorm hstat⟩
  · intro x hx hne
    rw [hrun]
    show is_file_uploaded (set_folder_status (mark_file_uploaded db g fp) fp "processed") x =
      false
    rw [is_file_uploaded_set_status, is_file_uploaded_mark_ne db g fp x hne]
    exact hdedup x (by simp [hx])
  · rw [hrun]
    show is_file_uploaded (set_folder_status (mark_file_uploaded db g fp) fp "processed") g =
      true
    rw [is_file_uploaded_set_status]
    exact is_file_uploaded_mark_self db g fp g rfl

/-- Token map for the C1 witness run. -/
def tkC1 : String → String := fun p => p ++ ".tok"

/-- The ten files of the failing first batch in the C1 witness run. -/
def b1C1 : List String :=
  ["/w/A/f0.jpg", "/w/A/f1.jpg", "/w/A/f2.jpg", "/w/A/f3.jpg", "/w/A/f4.jpg",
    "/w/A/f5.jpg", "/w/A/f6.jpg", "/w/A/f7.jpg", "/w/A/f8.jpg", "/w/A/f9.jpg"]

/-- Store for the C1 witness run: the folder already has its album. -/
def dbC1w : TransferDB := ⟨[("/w/A", ⟨some "alb", "pending"⟩)], []⟩

/-- Remote oracle for the C1 witness run: every upload succeeds, the first
batch's commit fails with a non-quota error, the second batch's commit
succeeds. -/
def remC1w : Remote :=
  ⟨fun _ => .error "unexpected",
    fun p => .ok (tkC1 p),
    fun toks alb =>
      if toks = b1C1.map tkC1 ∧ alb = some "alb" then .error "backend exploded"
      else if toks = ["/w/A/g.jpg.tok"] ∧ alb = some "alb" then .ok ["mm"]
      else .error "unexpected"⟩

/-- Walk oracle for the C1 witness run: ten batch-1 files plus `g.jpg`. -/
def walkC1w : String → List (String × String) := fun p =>
  if p = "/w/A" then
    [("/w/A", "f0.jpg"), ("/w/A", "f1.jpg"), ("/w/A", "f2.jpg"), ("/w/A", "f3.jpg"),
      ("/w/A", "f4.jpg"), ("/w/A", "f5.jpg"), ("/w/A", "f6.jpg"), ("/w/A", "f7.jpg"),
      ("/w/A", "f8.jpg"), ("/w/A", "f9.jpg"), ("/w/A", "g.jpg")]
  else []

/-- Witness for C1 (amended): in the eleven-file run the failed first batch
stays unmarked, the second batch's file is marked, and the second call
short-circuits with zero remote calls. -/
theorem C1_commit_failure_batch_unmarked_witness :
    is_file_uploaded (process_folder remC1w walkC1w dbC1w "/w/A").db "/w/A/f0.jpg" = false ∧
    is_file_uploaded (process_folder remC1w walkC1w dbC1w "/w/A").db "/w/A/g.jpg" = true ∧
    process_folder remC1w walkC1w (process_folder remC1w walkC1w dbC1w "/w/A").db "/w/A" =
      ⟨true, (process_folder remC1w walkC1w dbC1w "/w/A").db, []⟩ := by
  have h := C1_commit_failure_batch_unmarked remC1w walkC1w dbC1w "/w/A" "alb" "pending"
    b1C1 "/w/A/g.jpg" tkC1 "/w/A/g.jpg.tok" "backend exploded" ["mm"]
    (by decide) (by decide) (by decide) (by decide) (by decide) (by decide)
    (by decide) (by decide) (by decide) (by decide) (by decide)
  exact ⟨h.2.1 "/w/A/f0.jpg" (by decide) (by decide), h.2.2.1, h.2.2.2.2⟩

/-- C3: a quota-type upload failure at file `f` of the first batch aborts
`process_folder` at once with `false`: the files before `f` are uploaded,
`f`'s failing upload is the last remote call — no commit happens, no later
file or batch is attempted — and the database is returned untouched, so
every file of the batch (uploaded or not) is still recorded not-uploaded. -/
theorem C3_quota_upload_abort (r : Remote) (w : String → List (String × String))
    (db : TransferDB) (fp aid st : String) (pre : List String) (f : String)
    (post : List String) (e : String)
    (hnorm : normKey fp = fp)
    (hr : get_folder_resumption_data db fp = some (some aid, st))
    (hst : st ≠ "processed")
    (henum : enumFiles (w fp) = pre ++ f :: post)
    (hlen : pre.length < 10)
    (hdedup : ∀ x ∈ pre ++ f :: post, is_file_uploaded db x = false)
    (hpre : ∀ p ∈ pre, ∃ t, r.upload_bytes p = .ok t)
    (hf : r.upload_bytes f = .error e)
    (hq : isQuotaError e = true) :
    process_folder r w db fp =
      ⟨false, db,
        pre.map (fun p => Ev.upload p (r.upload_bytes p)) ++ [Ev.upload f (.error e)]⟩ := by
  have hfs_ne : pre ++ f :: post ≠ [] := by simp
  have hrn : get_folder_resumption_data db (normKey fp) = some (some aid, st) := by
    rw [hnorm]
    exact hr
  have hpf : process_folder r w db fp = process_folder_rest r (w fp) db fp (some aid) := by
    have h0 := pf_existing_album r w db fp aid st hrn hst
    rwa [hnorm] at h0
  have htake : (pre ++ f :: post).take 10 = pre ++ f :: post.take (10 - pre.length - 1) := by
    rw [List.take_append_eq_append_take, List.take_of_length_le (le_of_lt hlen)]
    congr 1
    have h10 : 10 - pre.length = (10 - pre.length - 1) + 1 := by omega
    rw [h10, List.take_succ_cons]
    simp
  have hchunks : chunks (pre ++ f :: post) =
      (pre ++ f :: post.take (10 - pre.length - 1)) :: chunks ((pre ++ f :: post).drop 10) := by
    rw [chunks_cons _ hfs_ne, htake]
  have hupb := uploadBatch_quota r pre f (post.take (10 - pre.length - 1)) e hpre hf hq
  have hrb := runBatches_quota r fp (some aid) db
    (pre ++ f :: post.take (10 - pre.length - 1)) (chunks ((pre ++ f :: post).drop 10)) hupb.1
  have hfinal : runBatches r fp (some aid) db (chunks (pre ++ f :: post)) =
      ⟨false, db,
        pre.map (fun p => Ev.upload p (r.upload_bytes p)) ++ [Ev.upload f (.error e)]⟩ := by
    rw [hchunks, hrb, hupb.2]
  rw [hpf, pfr_eval r (w fp) db fp (some aid) (pre ++ f :: post) henum hfs_ne hdedup]
  rw [hfinal]
  rfl

/-- Store for the C3 witness run. -/
def dbC3 : TransferDB := ⟨[("/v/C", ⟨some "al", "pending"⟩)], []⟩

/-- Remote oracle for the C3 witness run: two uploads succeed, the third
fails with a quota message, the fourth would succeed if it were attempted. -/
def remC3 : Remote :=
  ⟨fun _ => .error "unexpected",
    fun p =>
      if p = "/v/C/a.jpg" then .ok "ta"
      else if p = "/v/C/b.jpg" then .ok "tb"
      else if p = "/v/C/c.jpg" then .error "Rate limit: quota exceeded"
      else if p = "/v/C/d.jpg" then .ok "td"
      else .error "unexpected",
    fun _ _ => .error "unexpected"⟩

/-- Walk oracle for the C3 witness run. -/
def walkC3 : String → List (String × String) := fun p =>
  if p = "/v/C" then
    [("/v/C", "a.jpg"), ("/v/C", "b.jpg"), ("/v/C", "c.jpg"), ("/v/C", "d.jpg")]
  else []

/-- Witness for C3: the quota failure on the third of four files ends the run
at that call with `false` and an unchanged store. -/
theorem C3_quota_upload_abort_witness :
    process_folder remC3 walkC3 dbC3 "/v/C" =
      ⟨false, dbC3,
        [Ev.upload "/v/C/a.jpg" (.ok "ta"), Ev.upload "/v/C/b.jpg" (.ok "tb"),
          Ev.upload "/v/C/c.jpg" (.error "Rate limit: quota exceeded")]⟩ := by
  have h := C3_quota_upload_abort remC3 walkC3 dbC3 "/v/C" "al" "pending"
    ["/v/C/a.jpg", "/v/C/b.jpg"] "/v/C/c.jpg" ["/v/C/d.jpg"] "Rate limit: quota exceeded"
    (by decide) (by decide) (by decide) (by decide) (by decide) (by decide)
    (by
      intro p hp
      simp at hp
      rcases hp with h | h
      · rw [h]
        exact ⟨"ta", by decide⟩
      · rw [h]
        exact ⟨"tb", by decide⟩)
    (by decide) (by decide)
  exact h.trans (by decide)

/-- C10: a failure during file upload or batch commit aborts the folder if
and only if the exception message contains `"quota"` case-insensitively or
the substring `"429"` — the classification `"quota" in msg.lower() or "429"
in msg` used at every failure site of `process_folder`.  Consequently a
non-quota failure whose message merely echoes `429` (say inside a file
path) aborts the entire folder as if quota were exhausted. -/
theorem C10_quota_classification (r : Remote) (w : String → List (String × String))
    (db : TransferDB) (fp aid st f m : String)
    (hnorm : normKey fp = fp)
    (hr : get_folder_resumption_data db fp = some (some aid, st))
    (hst : st ≠ "processed")
    (henum : enumFiles (w fp) = [f])
    (hded : is_file_uploaded db f = false) :
    (r.upload_bytes f = .error m →
      ((process_folder r w db fp).ok = false ↔
        (containsSub (strLower m) "quota" = true ∨ containsSub m "429" = true))) ∧
    (∀ t, r.upload_bytes f = .ok t → r.batch_create [t] (some aid) = .error m →
      ((process_folder r w db fp).ok = false ↔
        (containsSub (strLower m) "quota" = true ∨ containsSub m "429" = true))) := by
  have hrn : get_folder_resumption_data db (normKey fp) = some (some aid, st) := by
    rw [hnorm]
    exact hr
  have hpf : process_folder r w db fp = process_folder_rest r (w fp) db fp (some aid) := by
    have h0 := pf_existing_album r w db fp aid st hrn hst
    rwa [hnorm] at h0
  have hchunks : chunks [f] = [[f]] := chunks_small [f] (by simp) (by simp)
  have hdedup : ∀ x ∈ [f], is_file_uploaded db x = false := by
    intro x hx
    simp at hx
    rw [hx]
    exact hded
  have hpfr := pfr_eval r (w fp) db fp (some aid) [f] henum (by simp) hdedup
  have hiff : (containsSub (strLower m) "quota" = true ∨ containsSub m "429" = true) ↔
      isQuotaError m = true := by
    unfold isQuotaError
    rw [Bool.or_eq_true]
  constructor
  · intro herr
    by_cases hqm : isQuotaError m = true
    · have hub : (uploadBatch r [f]).quota = true := by
        unfold uploadBatch
        rw [herr]
        simp [hqm]
      have hrb := runBatches_quota r fp (some aid) db [f] [] hub
      have hokf : (process_folder r w db fp).ok = false := by
        rw [hpf, hpfr, hchunks, hrb]
        rfl
      rw [hokf]
      exact iff_of_true rfl (hiff.mpr hqm)
    · have hqmf : isQuotaError m = false := by
        cases hb : isQuotaError m with
        | false => rfl
        | true => exact absurd hb hqm
      have hub : uploadBatch r [f] = ⟨false, [], [Ev.upload f (.error m)]⟩ := by
        unfold uploadBatch
        rw [herr]
        simp only [hqmf, Bool.false_eq_true, if_false]
        rfl
      have hq0 : (uploadBatch r [f]).quota = false := by rw [hub]
      have ht0 : (uploadBatch r [f]).pairs.map Prod.fst = [] := by
        rw [hub]
        rfl
      have hrb := runBatches_no_tokens r fp (some aid) db [f] [] hq0 ht0
      have hok : (process_folder r w db fp).ok = true := by
        rw [hpf, hpfr, hchunks, hrb]
        rfl
      rw [hok]
      constructor
      · intro hcon
        exact absurd hcon (by simp)
      · intro hdisj
        exact absurd (hiff.mp hdisj) (by rw [hqmf]; simp)
  · intro t hokup hcom
    have hub : uploadBatch r [f] = ⟨false, [(t, f)], [Ev.upload f (.ok t)]⟩ := by
      unfold uploadBatch
      rw [hokup]
      rfl
    have hq0 : (uploadBatch r [f]).quota = false := by rw [hub]
    have hpair : (uploadBatch r [f]).pairs.map Prod.fst = [t] := by
      rw [hub]
      rfl
    have ht0 : (uploadBatch r [f]).pairs.map Prod.fst ≠ [] := by
      rw [hpair]
      simp
    have hc0 : r.batch_create ((uploadBatch r [f]).pairs.map Prod.fst) (some aid) =
        .error m := by
      rw [hpair]
      exact hcom
    by_cases hqm : isQuotaError m = true
    · have hrb := runBatches_commit_quota r fp (some aid) db [f] [] m hq0 ht0 hc0 hqm
      have hokf : (process_folder r w db fp).ok = false := by
        rw [hpf, hpfr, hchunks, hrb]
        rfl
      rw [hokf]
      exact iff_of_true rfl (hiff.mpr hqm)
    · have hqmf : isQuotaError m = false := by
        cases hb : isQuotaError m with
        | false => rfl
        | true => exact absurd hb hqm
      have hrb := runBatches_commit_fail r fp (some aid) db [f] [] m hq0 ht0 hc0 hqmf
      have hok : (process_folder r w db fp).ok = true := by
        rw [hpf, hpfr, hchunks, hrb]
        rfl
      rw [hok]
      constructor
      · intro hcon
        exact absurd hcon (by simp)
      · intro hdisj
        exact absurd (hiff.mp hdisj) (by rw [hqmf]; simp)

/-- Store for the C10 witness run. -/
def dbC10 : TransferDB := ⟨[("/u/D", ⟨some "ad", "pending"⟩)], []⟩

/-- Remote oracle for the C10 witness run: the upload failure's message is a
permission error whose file path happens to contain `429`. -/
def remC10 : Remote :=
  ⟨fun _ => .error "unexpected",
    fun _ => .error "Upload failed for /backup/IMG_429.jpg: Permission denied",
    fun _ _ => .error "unexpected"⟩

/-- Walk oracle for the C10 witness run. -/
def walkC10 : String → List (String × String) := fun p =>
  if p = "/u/D" then [("/u/D", "x.jpg")] else []

/-- Witness for C10: a non-quota permission error whose text contains `429`
(inside an echoed file path) aborts the whole folder. -/
theorem C10_quota_classification_witness :
    containsSub (strLower "Upload failed for /backup/IMG_429.jpg: Permission denied")
      "quota" = false ∧
    containsSub "Upload failed for /backup/IMG_429.jpg: Permission denied" "429" = true ∧
    (process_folder remC10 walkC10 dbC10 "/u/D").ok = false := by
  have h := (C10_quota_classification remC10 walkC10 dbC10 "/u/D" "ad" "pending" "/u/D/x.jpg"
    "Upload failed for /backup/IMG_429.jpg: Permission denied"
    (by decide) (by decide) (by decide) (by decide) (by decide)).1 (by decide)
  exact ⟨by decide, by decide, h.mpr (Or.inr (by decide))⟩

/-- C8: the session driver is strictly head-first.  Every run splits the
queue at some index `k`: the first `k` folders were processed in order and
each returned `true` (and each was removed from the head of the queue), the
remaining queue is exactly the original queue from position `k` on, and
either the run paused — the `k`-th folder was the first to return `false`,
it is recorded as the one failing result and remains first in the remaining
queue, with no later folder processed — or the queue was exhausted. -/
theorem C8_driver_head_first (r : Remote) (w : String → List (String × String))
    (db : TransferDB) (q : List String) :
    ∃ k, k ≤ q.length ∧
      (start_transfer r w db q).queue = q.drop k ∧
      (start_transfer r w db q).results =
        (q.take k).map (fun p => (p, true)) ++
          (if (start_transfer r w db q).paused then [((q.drop k).headD "", false)] else []) ∧
      ((start_transfer r w db q).paused = true ∨ q.drop k = []) := by
  induction q generalizing db with
  | nil => exact ⟨0, by simp, rfl, rfl, Or.inr rfl⟩
  | cons f rest ih =>
    by_cases ho : (process_folder r w db f).ok = true
    · obtain ⟨k, hk, hq, hres, hp⟩ := ih (process_folder r w db f).db
      have hstep : start_transfer r w db (f :: rest) =
          ⟨(start_transfer r w (process_folder r w db f).db rest).db,
            (start_transfer r w (process_folder r w db f).db rest).queue,
            (f, true) :: (start_transfer r w (process_folder r w db f).db rest).results,
            (process_folder r w db f).events ++
              (start_transfer r w (process_folder r w db f).db rest).events,
            (start_transfer r w (process_folder r w db f).db rest).paused⟩ := by
        simp only [start_transfer]
        rw [if_pos ho]
      refine ⟨k + 1, by simpa using Nat.succ_le_succ hk, ?_, ?_, ?_⟩
      · rw [hstep]
        show (start_transfer r w (process_folder r w db f).db rest).queue =
          (f :: rest).drop (k + 1)
        rw [hq, List.drop_succ_cons]
      · rw [hstep]
        show (f, true) :: (start_transfer r w (process_folder r w db f).db rest).results = _
        rw [hres]
        simp [List.drop_succ_cons]
      · rw [hstep]
        show (start_transfer r w (process_folder r w db f).db rest).paused = true ∨
          (f :: rest).drop (k + 1) = []
        rw [List.drop_succ_cons]
        exact hp
    · have hstep : start_transfer r w db (f :: rest) =
          ⟨(process_folder r w db f).db, f :: rest, [(f, false)],
            (process_folder r w db f).events, true⟩ := by
        simp only [start_transfer]
        rw [if_neg ho]
      refine ⟨0, by simp, ?_, ?_, ?_⟩
      · rw [hstep]
        rfl
      · rw [hstep]
        rfl
      · rw [hstep]
        exact Or.inl rfl

/-- C9: recorded progress is monotone across the engine's operations,
including every error path.  Any `process_folder` call and any
`start_transfer` run preserve both a file's recorded `uploaded` status and
a folder's recorded `processed` status: no branch of the engine ever
deletes a record or writes any other value over them. -/
theorem C9_progress_monotone (r : Remote) (w : String → List (String × String))
    (db : TransferDB) (fp : String) (q : List String) (file folder : String) :
    (is_file_uploaded db file = true →
      is_file_uploaded (process_folder r w db fp).db file = true) ∧
    (folder_status db folder = some "processed" →
      folder_status (process_folder r w db fp).db folder = some "processed") ∧
    (is_file_uploaded db file = true →
      is_file_uploaded (start_transfer r w db q).db file = true) ∧
    (folder_status db folder = some "processed" →
      folder_status (start_transfer r w db q).db folder = some "processed") :=
  ⟨(process_folder_mono r w db fp file folder).1,
    (process_folder_mono r w db fp file folder).2,
    (start_transfer_mono r w db q file folder).1,
    (start_transfer_mono r w db q file folder).2⟩

/-- Store for the C9 witness: one uploaded file and one processed folder. -/
def dbC9 : TransferDB :=
  ⟨[("/m/P", ⟨none, "processed"⟩)], [("/m/P/a.jpg", ⟨"/m/P", "uploaded"⟩)]⟩

/-- Witness for C9: across a failing `process_folder` call and a driver run,
the recorded `uploaded` file and `processed` folder survive untouched. -/
theorem C9_progress_monotone_witness :
    is_file_uploaded dbC9 "/m/P/a.jpg" = true ∧
    is_file_uploaded (process_folder remC2 walkC2 dbC9 "/r/photos from 2020").db
      "/m/P/a.jpg" = true ∧
    folder_status (start_transfer remC2 walkC2 dbC9 ["/r/photos from 2020"]).db
      "/m/P" = some "processed" := by
  have h := C9_progress_monotone remC2 walkC2 dbC9 "/r/photos from 2020"
    ["/r/photos from 2020"] "/m/P/a.jpg" "/m/P"
  exact ⟨by decide, h.1 (by decide), h.2.2.2 (by decide)⟩
